import Mathlib

/-!
Verification of the URL templating utility
(`src/components/centraldashboard/public/components/url-utils.js`).

The JavaScript module is embedded shallowly:

* JavaScript strings are modelled as Lean `String` (a wrapper around
  `List Char`); the character-level helpers below mirror the JavaScript
  string operations used by the source (`split('.')`, `indexOf`,
  `substring`, `slice(1).join('.')`, and `String.prototype.replace`
  with a global literal-pattern regex, including the `$$`/`$&`
  (backquote-dollar)/`$'` special replacement patterns of
  ECMAScript's GetSubstitution).
* A JavaScript string-or-nullish argument is modelled as `Option String`
  (`none` = `null`/`undefined`/missing); JavaScript falsiness on such a
  value is `none` or the empty string.
* The ambient `window.location.hostname` is passed explicitly as a
  `wloc : Option String` parameter.
* `console.warn` diagnostics are collected in a `warnings` list.
-/

namespace UrlUtils

/-- A JavaScript string-or-nullish value: `none` models `null`/`undefined`
(or an absent argument), `some s` models the string `s`. -/
abbrev JStr := Option String

/-- JavaScript falsiness of a string-or-nullish value: `null`, `undefined`
and the empty string are falsy; every other string is truthy. -/
def falsy : JStr → Bool
  | none => true
  | some s => s = ""

/-- Coerce a `JStr` to the string it holds (only used on values already
known to be truthy, mirroring how the source uses such arguments). -/
def jget : JStr → String
  | none => ""
  | some s => s

/-- `splitOnChar c s` models JavaScript `s.split(c)` for a single-character
separator: `"".split('.') = [""]`, `"a.".split('.') = ["a", ""]`. -/
def splitOnChar (c : Char) : List Char → List (List Char)
  | [] => [[]]
  | x :: xs =>
    if x = c then [] :: splitOnChar c xs
    else
      match splitOnChar c xs with
      | [] => [[x]]
      | h :: t => (x :: h) :: t

/-- `intercalateChar c parts` models JavaScript `parts.join(c)`. -/
def intercalateChar (c : Char) : List (List Char) → List Char
  | [] => []
  | [x] => x
  | x :: y :: rest => x ++ c :: intercalateChar c (y :: rest)

/-- `afterFirstChar c s` models JavaScript
`s.indexOf(c) === -1 ? null : s.substring(s.indexOf(c) + 1)`:
the suffix strictly after the first occurrence of `c`, if any. -/
def afterFirstChar (c : Char) : List Char → Option (List Char)
  | [] => none
  | x :: xs => if x = c then some xs else afterFirstChar c xs

/-- `firstSplit pat s` models JavaScript `s.indexOf(pat)`: if `pat` occurs
in `s`, returns `(pre, post)` with `s = pre ++ pat ++ post` split at the
first occurrence; otherwise `none`. -/
def firstSplit (pattern : List Char) : List Char → Option (List Char × List Char)
  | [] => if pattern.isPrefixOf ([] : List Char) then some ([], []) else none
  | x :: xs =>
    if pattern.isPrefixOf (x :: xs) then some ([], (x :: xs).drop pattern.length)
    else (firstSplit pattern xs).map (fun p => (x :: p.1, p.2))

/-- The literal substring `"-kubeflow"` that `extractTenantFromHostname`
truncates at (source line 134). -/
def kubeflowMarker : List Char := "-kubeflow".data

/-- Default domain configuration (source line 95). -/
def DEFAULT_DOMAIN : String := "cloud-tmp.physicsx.ai"

/-- `extractTenantFromHostname` (source lines 110-140): split the hostname
on `'.'`; the first part is the tenant, the rest joined by `'.'` is the
domain; return `null` for a falsy/non-string input, fewer than two parts,
or an empty tenant/domain; truncate the tenant before the first
occurrence of `"-kubeflow"`. -/
def extractTenantFromHostname (hostname : JStr) : Option String :=
  match hostname with
  | none => none
  | some s =>
    if s = "" then none
    else
      let parts := splitOnChar '.' s.data
      if parts.length < 2 then none
      else
        let tenant := parts.headD []
        let domain := intercalateChar '.' parts.tail
        if tenant = [] ∨ domain = [] then none
        else
          match firstSplit kubeflowMarker tenant with
          | some (pre, _) => some (String.mk pre)
          | none => some (String.mk tenant)

/-- `extractDomainFromHostname` (source lines 148-160): for a falsy or
non-string input return `DEFAULT_DOMAIN`; otherwise return everything
after the first `'.'`, or `DEFAULT_DOMAIN` when there is no dot. -/
def extractDomainFromHostname (hostname : JStr) : String :=
  match hostname with
  | none => DEFAULT_DOMAIN
  | some s =>
    if s = "" then DEFAULT_DOMAIN
    else
      match afterFirstChar '.' s.data with
      | none => DEFAULT_DOMAIN
      | some rest => String.mk rest

/-- One entry of the static service table (source lines 47-90). -/
structure ServiceConfig where
  name : String
  format : String
  path : String
deriving DecidableEq

/-- The static service table `SERVICE_CONFIG` (source lines 47-90),
as a lookup from the identifier key to its descriptor. -/
def SERVICE_CONFIG (key : String) : Option ServiceConfig :=
  if key = "MLFLOW" then
    some ⟨"mlflow", "tenant-prefix", "/"⟩
  else if key = "OPTIMIZER" then
    some ⟨"optimizer", "tenant-subdomain", "/platform-app/app/optimizer"⟩
  else if key = "VAULT" then
    some ⟨"vault", "tenant-subdomain", "/vault-filebrowser/files/"⟩
  else if key = "SIM_WORKBENCH" then
    some ⟨"sim-workbench", "tenant-subdomain", "/simlab-react-ui/projects"⟩
  else if key = "PLATFORM_DOCS" then
    some ⟨"platform-docs", "tenant-subdomain", "/documentation/"⟩
  else if key = "AI_WORKBENCH_DOCS" then
    some ⟨"ai-workbench", "tenant-subdomain", "/platform-documentation/ai_workbench/index.html"⟩
  else none

/-- The keys of the service table in object insertion order
(`Object.keys(SERVICE_CONFIG)`). -/
def SERVICE_KEYS : List String :=
  ["MLFLOW", "OPTIMIZER", "VAULT", "SIM_WORKBENCH", "PLATFORM_DOCS", "AI_WORKBENCH_DOCS"]

/-- JavaScript `s.toUpperCase()` (modelled on its ASCII case mapping,
which covers every identifier in the service table). -/
def jsToUpperCase (s : String) : String :=
  String.mk (s.data.map Char.toUpper)

/-- Result of `generateServiceUrl`: the returned value plus the
`console.warn` diagnostics it emitted. -/
structure GenOut where
  url : Option String
  warnings : List String
deriving DecidableEq

/-- `generateServiceUrl` (source lines 182-217). `wloc` is the ambient
`window.location.hostname`. Returns `null` (and no warning) when `tenant`
or `serviceName` is falsy; warns and returns `null` on an unknown service
identifier or an unknown format; otherwise builds the URL from the
descriptor's format, using the provided domain when truthy and the one
extracted from `wloc` otherwise. -/
def generateServiceUrl (wloc serviceName tenant domain : JStr) : GenOut :=
  if falsy tenant || falsy serviceName then ⟨none, []⟩
  else
    match SERVICE_CONFIG (jsToUpperCase (jget serviceName)) with
    | none => ⟨none, ["Unknown service: " ++ jget serviceName]⟩
    | some serviceConfig =>
      let targetDomain :=
        if falsy domain then extractDomainFromHostname wloc else jget domain
      if serviceConfig.format = "tenant-prefix" then
        ⟨some ("https://" ++ jget tenant ++ "-" ++ serviceConfig.name ++ "." ++
          targetDomain ++ serviceConfig.path), []⟩
      else if serviceConfig.format = "tenant-subdomain" then
        ⟨some ("https://" ++ jget tenant ++ "." ++ targetDomain ++
          serviceConfig.path), []⟩
      else ⟨none, ["Unknown service format: " ++ serviceConfig.format]⟩

/-- `generateAllServiceUrls` (source lines 226-235): iterate the service
table in key order, keying each generated URL by the descriptor's display
name. The `none` arm of the lookup is unreachable (every key of
`SERVICE_KEYS` is in the table). -/
def generateAllServiceUrls (wloc tenant domain : JStr) : List (String × Option String) :=
  SERVICE_KEYS.map (fun serviceKey =>
    match SERVICE_CONFIG serviceKey with
    | some serviceConfig =>
      (serviceConfig.name, (generateServiceUrl wloc (some serviceKey) tenant domain).url)
    | none => ("", none))

/-- The `TENANT` placeholder token replaced by `processExternalLink`
(source line 275). -/
def TENANT_TOKEN : String := "$\x7bTENANT\x7d"

/-- The `DOMAIN` placeholder token replaced by `processExternalLink`
(source line 276). -/
def DOMAIN_TOKEN : String := "$\x7bDOMAIN\x7d"

/-- ECMAScript `GetSubstitution` for a literal (capture-group-free)
pattern: expand the replacement template at one match, where `matched` is
the matched text, `before` the part of the original string preceding the
match and `after` the part following it. `$$` yields `$`, `$&` the match,
a dollar followed by a backquote yields `before`, `$'` yields `after`;
any other `$` sequence is literal. -/
def expandRepl (matched before after : List Char) : List Char → List Char
  | [] => []
  | c :: rest =>
    if c = '$' then
      match rest with
      | [] => ['$']
      | c2 :: rest2 =>
        if c2 = '$' then '$' :: expandRepl matched before after rest2
        else if c2 = '&' then matched ++ expandRepl matched before after rest2
        else if c2 = Char.ofNat 96 then before ++ expandRepl matched before after rest2
        else if c2 = '\'' then after ++ expandRepl matched before after rest2
        else '$' :: expandRepl matched before after (c2 :: rest2)
    else c :: expandRepl matched before after rest

/-- One pass of JavaScript `s.replace(/pat/g, repl)` over the remaining
input, fuelled for termination. `pre0` is the already-consumed part of
the original string (needed by the backquote-dollar and `$'` replacement
patterns, which refer to the original string). -/
def jsReplaceGo (pattern repl : List Char) : Nat → List Char → List Char → List Char
  | 0, _, s => s
  | fuel + 1, pre0, s =>
    match firstSplit pattern s with
    | none => s
    | some (pre, post) =>
      pre ++ expandRepl pattern (pre0 ++ pre) post repl ++
        jsReplaceGo pattern repl fuel (pre0 ++ pre ++ pattern) post

/-- JavaScript `s.replace(/pat/g, repl)` for a literal pattern `pat`
with no capture groups. -/
def jsReplaceAll (s pattern repl : List Char) : List Char :=
  jsReplaceGo pattern repl (s.length + 1) [] s

/-- `processExternalLink` (source lines 266-277): identity passthrough
when `link` or `tenant` is falsy; otherwise replace all `TENANT_TOKEN`
occurrences with the tenant, then all `DOMAIN_TOKEN` occurrences with the
resolved domain, with JavaScript replacement-string semantics. -/
def processExternalLink (wloc link tenant domain : JStr) : JStr :=
  if falsy link || falsy tenant then link
  else
    let targetDomain :=
      if falsy domain then extractDomainFromHostname wloc else jget domain
    some (String.mk (jsReplaceAll
      (jsReplaceAll (jget link).data TENANT_TOKEN.data (jget tenant).data)
      DOMAIN_TOKEN.data targetDomain.data))

/-- An element of the `externalLinks` array (source lines 304-315): its
`link` field plus all its other fields, the latter kept abstract as an
association list that this module only copies. -/
structure ExternalLink where
  link : JStr
  rest : List (String × String)
deriving DecidableEq

/-- `processExternalLinks` (source lines 304-315): identity passthrough
when `tenant` is falsy (the non-array input case is outside this model,
where the argument is typed as a list); otherwise map each element to a
shallow copy whose `link` field is rewritten by `processExternalLink`. -/
def processExternalLinks (wloc : JStr) (externalLinks : List ExternalLink)
    (tenant domain : JStr) : List ExternalLink :=
  if falsy tenant then externalLinks
  else
    externalLinks.map (fun l =>
      { link := processExternalLink wloc l.link tenant domain, rest := l.rest })

/-- Modelled from the spec: "global (all-occurrences) literal replacement"
(spec section 4.4) — one pass of literal replacement with the replacement
text inserted verbatim, fuelled like `jsReplaceGo`. Used only to compare
the code's replacement semantics against the spec's words. -/
def litReplaceGo (pattern repl : List Char) : Nat → List Char → List Char
  | 0, s => s
  | fuel + 1, s =>
    match firstSplit pattern s with
    | none => s
    | some (pre, post) => pre ++ repl ++ litReplaceGo pattern repl fuel post

/-- Modelled from the spec: global literal replacement of `pattern` by
`repl` in `s`, with `repl` inserted verbatim at every occurrence. -/
def specLiteralReplaceAll (s pattern repl : String) : String :=
  String.mk (litReplaceGo pattern.data repl.data (s.data.length + 1) s.data)

/-! ### Helper lemmas -/

/-- Every descriptor in the service table uses one of the two known
formats. -/
theorem SERVICE_CONFIG_format {key : String} {cfg : ServiceConfig}
    (h : SERVICE_CONFIG key = some cfg) :
    cfg.format = "tenant-prefix" ∨ cfg.format = "tenant-subdomain" := by
  unfold SERVICE_CONFIG at h
  split_ifs at h
  all_goals injection h with h2
  all_goals subst h2
  all_goals simp

/-- Evaluation of `generateServiceUrl` when both `tenant` and
`serviceName` are truthy and the service identifier is in the table. -/
theorem generateServiceUrl_eval (wloc serviceName tenant domain : JStr)
    (cfg : ServiceConfig)
    (ht : falsy tenant = false) (hs : falsy serviceName = false)
    (hcfg : SERVICE_CONFIG (jsToUpperCase (jget serviceName)) = some cfg) :
    generateServiceUrl wloc serviceName tenant domain =
      ⟨some (if cfg.format = "tenant-prefix" then
          "https://" ++ jget tenant ++ "-" ++ cfg.name ++ "." ++
            (if falsy domain then extractDomainFromHostname wloc else jget domain) ++
            cfg.path
        else
          "https://" ++ jget tenant ++ "." ++
            (if falsy domain then extractDomainFromHostname wloc else jget domain) ++
            cfg.path), []⟩ := by
  unfold generateServiceUrl
  rw [ht, hs, hcfg]
  simp only [Bool.or_self, Bool.false_eq_true, if_false]
  rcases SERVICE_CONFIG_format hcfg with hf | hf
  · rw [if_pos hf, if_pos hf]
  · have hne : cfg.format ≠ "tenant-prefix" := by rw [hf]; decide
    rw [if_neg hne, if_neg hne, if_pos hf]

/-- `afterFirstChar` at the first occurrence: if `c` does not occur in
`pre`, the suffix after the first `c` of `pre ++ c :: post` is `post`. -/
theorem afterFirstChar_append {c : Char} (pre post : List Char) (h : c ∉ pre) :
    afterFirstChar c (pre ++ c :: post) = some post := by
  induction pre with
  | nil => simp [afterFirstChar]
  | cons x xs ih =>
    have hx : x ≠ c := fun hxc => h (hxc ▸ List.mem_cons_self x xs)
    simp only [List.cons_append, afterFirstChar, if_neg hx]
    exact ih (fun hm => h (List.mem_cons_of_mem x hm))

/-- `afterFirstChar` misses: if `c` does not occur in `l` there is no
suffix. -/
theorem afterFirstChar_of_not_mem {c : Char} {l : List Char} (h : c ∉ l) :
    afterFirstChar c l = none := by
  induction l with
  | nil => rfl
  | cons x xs ih =>
    have hx : x ≠ c := fun hxc => h (hxc ▸ List.mem_cons_self x xs)
    simp only [afterFirstChar, if_neg hx]
    exact ih (fun hm => h (List.mem_cons_of_mem x hm))

/-- The suffix after the first occurrence of a character is strictly
shorter than the whole list. -/
theorem afterFirstChar_length {c : Char} {l r : List Char}
    (h : afterFirstChar c l = some r) : r.length < l.length := by
  induction l with
  | nil => exact Option.noConfusion h
  | cons x xs ih =>
    by_cases hx : x = c
    · simp only [afterFirstChar, if_pos hx] at h
      injection h with h2
      subst h2
      simp
    · simp only [afterFirstChar, if_neg hx] at h
      exact Nat.lt_trans (ih h) (by simp)

/-- A `firstSplit` match with an empty prefix is a match at position 0,
i.e. the pattern is a prefix of the list. -/
theorem firstSplit_nil_pre {pattern l post : List Char}
    (h : firstSplit pattern l = some ([], post)) :
    pattern.isPrefixOf l = true := by
  cases l with
  | nil =>
    unfold firstSplit at h
    split_ifs at h with hp
    all_goals exact hp
  | cons x xs =>
    unfold firstSplit at h
    split_ifs at h with hp
    · exact hp
    · rcases ho : firstSplit pattern xs with _ | ⟨p1, p2⟩
      · rw [ho] at h; exact Option.noConfusion h
      · rw [ho] at h; simp at h

/-- Expanding a dollar-free replacement template inserts it verbatim. -/
theorem expandRepl_of_no_dollar (matched before after : List Char)
    {repl : List Char} (h : '$' ∉ repl) :
    expandRepl matched before after repl = repl := by
  induction repl with
  | nil => rfl
  | cons c rest ih =>
    have hc : c ≠ '$' := fun hcd => h (hcd ▸ List.mem_cons_self c rest)
    unfold expandRepl
    rw [if_neg hc, ih (fun hm => h (List.mem_cons_of_mem c hm))]

/-- With a dollar-free replacement, the JavaScript replacement pass
coincides with the spec's literal replacement pass. -/
theorem jsReplaceGo_eq_litReplaceGo (pattern : List Char) {repl : List Char}
    (h : '$' ∉ repl) :
    ∀ (fuel : Nat) (pre0 s : List Char),
      jsReplaceGo pattern repl fuel pre0 s = litReplaceGo pattern repl fuel s := by
  intro fuel
  induction fuel with
  | zero => intro pre0 s; rfl
  | succ n ih =>
    intro pre0 s
    rcases ho : firstSplit pattern s with _ | ⟨pre, post⟩ <;>
      simp only [jsReplaceGo, litReplaceGo, ho]
    rw [expandRepl_of_no_dollar _ _ _ h, ih]

/-- A replacement pass over a string with no occurrence of the pattern is
the identity. -/
theorem jsReplaceAll_of_no_match {pattern s : List Char} (repl : List Char)
    (h : firstSplit pattern s = none) : jsReplaceAll s pattern repl = s := by
  unfold jsReplaceAll jsReplaceGo
  rw [h]

/-! ### Claims -/

/-- C1: for every non-empty tenant string, non-empty domain string, and
serviceId whose uppercase form matches the static service table,
`generateServiceUrl` returns the URL built by the shape selected by the
matched descriptor's format: `https://{tenant}-{service.name}.{domain}{service.path}`
for the tenant-prefix format, and `https://{tenant}.{domain}{service.path}`
for the tenant-subdomain format. -/
theorem C1_generateServiceUrl_shapes (wloc : JStr) (serviceId tenant domain : String)
    (cfg : ServiceConfig) (ht : tenant ≠ "") (hd : domain ≠ "")
    (hcfg : SERVICE_CONFIG (jsToUpperCase serviceId) = some cfg) :
    (generateServiceUrl wloc (some serviceId) (some tenant) (some domain)).url =
      some (if cfg.format = "tenant-prefix" then
          "https://" ++ tenant ++ "-" ++ cfg.name ++ "." ++ domain ++ cfg.path
        else
          "https://" ++ tenant ++ "." ++ domain ++ cfg.path) := by
  have ht' : falsy (some tenant) = false := by simp [falsy, ht]
  have hs' : falsy (some serviceId) = false := by
    by_cases h0 : serviceId = ""
    · subst h0; simp [jsToUpperCase, SERVICE_CONFIG] at hcfg
    · simp [falsy, h0]
  have hd' : falsy (some domain) = false := by simp [falsy, hd]
  have he := generateServiceUrl_eval wloc (some serviceId) (some tenant)
    (some domain) cfg ht' hs' hcfg
  rw [he, hd']
  rfl

/-- Witness for C1: the two concrete URLs of the claim. -/
theorem C1_generateServiceUrl_shapes_witness :
    (generateServiceUrl none (some "MLFLOW") (some "ramsay")
        (some "cloud-tmp.physicsx.ai")).url =
      some "https://ramsay-mlflow.cloud-tmp.physicsx.ai/"
    ∧ (generateServiceUrl none (some "optimizer") (some "demo-dev")
        (some "cloud-tmp.physicsx.ai")).url =
      some "https://demo-dev.cloud-tmp.physicsx.ai/platform-app/app/optimizer" := by
  constructor
  · rw [C1_generateServiceUrl_shapes none "MLFLOW" "ramsay" "cloud-tmp.physicsx.ai"
      ⟨"mlflow", "tenant-prefix", "/"⟩ (by decide) (by decide) (by decide)]
    decide
  · rw [C1_generateServiceUrl_shapes none "optimizer" "demo-dev" "cloud-tmp.physicsx.ai"
      ⟨"optimizer", "tenant-subdomain", "/platform-app/app/optimizer"⟩
      (by decide) (by decide) (by decide)]
    decide

/-- C2 counterexample: the hostname `"a."` splits into two dot-separated
labels with a non-empty first label that does not contain `"-kubeflow"`,
so the claim predicts the result `"a"`, but the code returns `null`
because the domain side of the split is empty. -/
theorem C2_counterexample :
    2 ≤ (splitOnChar '.' "a.".data).length
    ∧ (splitOnChar '.' "a.".data).headD [] = "a".data
    ∧ firstSplit kubeflowMarker "a".data = none
    ∧ extractTenantFromHostname (some "a.") = none
    ∧ extractTenantFromHostname (some "a.") ≠ some "a" := by
  refine ⟨by decide, by decide, by decide, by decide, by decide⟩

/-- C2 (amended): for every hostname string with at least two
dot-separated labels, a non-empty first label, and a non-empty domain
side (the remaining labels joined by `'.'`), `extractTenantFromHostname`
returns the first label, except that when the first label contains
`"-kubeflow"` the result is the portion strictly before its first
occurrence. -/
theorem C2_extractTenant_first_label (s : String)
    (h2 : 2 ≤ (splitOnChar '.' s.data).length)
    (hT : (splitOnChar '.' s.data).headD [] ≠ [])
    (hD : intercalateChar '.' (splitOnChar '.' s.data).tail ≠ []) :
    extractTenantFromHostname (some s) =
      some (String.mk
        ((firstSplit kubeflowMarker ((splitOnChar '.' s.data).headD [])).elim
          ((splitOnChar '.' s.data).headD []) Prod.fst)) := by
  have hs : s ≠ "" := by
    intro h0
    subst h0
    simp [splitOnChar, show ("" : String).data = [] from rfl] at h2
  simp only [extractTenantFromHostname]
  rw [if_neg hs, if_neg (by omega : ¬ (splitOnChar '.' s.data).length < 2),
    if_neg (by tauto : ¬ ((splitOnChar '.' s.data).headD [] = []
      ∨ intercalateChar '.' (splitOnChar '.' s.data).tail = []))]
  rcases hk : firstSplit kubeflowMarker ((splitOnChar '.' s.data).headD [])
      with _ | ⟨pre, post⟩ <;>
    simp [hk]

/-- Witness for C2: the two concrete tenants of the claim. -/
theorem C2_extractTenant_first_label_witness :
    extractTenantFromHostname (some "ramsay.cloud-tmp.physicsx.ai") = some "ramsay"
    ∧ extractTenantFromHostname (some "demo-dev-kubeflow.cloud-tmp.physicsx.ai") =
        some "demo-dev" := by
  constructor
  · rw [C2_extractTenant_first_label "ramsay.cloud-tmp.physicsx.ai"
      (by decide) (by decide) (by decide)]
    decide
  · rw [C2_extractTenant_first_label "demo-dev-kubeflow.cloud-tmp.physicsx.ai"
      (by decide) (by decide) (by decide)]
    decide

/-- C3 counterexample: the code returns the empty string (not `null`, not
a non-empty string) when the first label begins with `"-kubeflow"`. -/
theorem C3_counterexample :
    extractTenantFromHostname (some "-kubeflow.example.com") = some "" := by
  decide

/-- C3 (amended): `extractTenantFromHostname` returns `null` exactly when
the input is not a non-empty string, has fewer than two dot-separated
labels, or the tenant side or domain side of the split is empty; the
returned string can be empty, but only when the first label begins with
`"-kubeflow"`. -/
theorem C3_extractTenant_null_iff :
    extractTenantFromHostname none = none
    ∧ (∀ s : String,
        (extractTenantFromHostname (some s) = none ↔
          s = "" ∨ (splitOnChar '.' s.data).length < 2
            ∨ (splitOnChar '.' s.data).headD [] = []
            ∨ intercalateChar '.' (splitOnChar '.' s.data).tail = []))
    ∧ (∀ s : String, extractTenantFromHostname (some s) = some "" →
        kubeflowMarker.isPrefixOf ((splitOnChar '.' s.data).headD []) = true) := by
  refine ⟨rfl, fun s => ?_, fun s h => ?_⟩
  · by_cases h1 : s = ""
    · simp [extractTenantFromHostname, h1]
    · simp only [extractTenantFromHostname, if_neg h1]
      by_cases h2 : (splitOnChar '.' s.data).length < 2
      · rw [if_pos h2]
        exact iff_of_true rfl (Or.inr (Or.inl h2))
      · rw [if_neg h2]
        by_cases h34 : (splitOnChar '.' s.data).headD [] = []
            ∨ intercalateChar '.' (splitOnChar '.' s.data).tail = []
        · rw [if_pos h34]
          exact iff_of_true rfl (Or.inr (Or.inr h34))
        · rw [if_neg h34]
          have hr : ¬(s = "" ∨ (splitOnChar '.' s.data).length < 2
              ∨ (splitOnChar '.' s.data).headD [] = []
              ∨ intercalateChar '.' (splitOnChar '.' s.data).tail = []) := by
            push_neg at h34 ⊢
            exact ⟨h1, Nat.not_lt.mp h2, h34.1, h34.2⟩
          rcases hk : firstSplit kubeflowMarker ((splitOnChar '.' s.data).headD [])
              with _ | ⟨pre, post⟩ <;> simp only [hk] <;>
            exact iff_of_false (by simp) hr
  · by_cases h1 : s = ""
    · rw [h1] at h; exact absurd h (by decide)
    · simp only [extractTenantFromHostname, if_neg h1] at h
      by_cases h2 : (splitOnChar '.' s.data).length < 2
      · rw [if_pos h2] at h; exact Option.noConfusion h
      · rw [if_neg h2] at h
        by_cases h3 : (splitOnChar '.' s.data).headD [] = []
            ∨ intercalateChar '.' (splitOnChar '.' s.data).tail = []
        · rw [if_pos h3] at h; exact Option.noConfusion h
        · rw [if_neg h3] at h
          rcases hk : firstSplit kubeflowMarker ((splitOnChar '.' s.data).headD [])
              with _ | ⟨pre, post⟩
          · rw [hk] at h
            injection h with h5
            exact absurd (congrArg String.data h5)
              (by push_neg at h3; exact h3.1)
          · rw [hk] at h
            injection h with h5
            have hpre : pre = [] := congrArg String.data h5
            subst hpre
            exact firstSplit_nil_pre hk

/-- Witness for C3: at `"-kubeflow.x"` the empty tenant is returned and
the first label indeed begins with `"-kubeflow"`; at `"localhost"` the
result is `null` because there is only one label. -/
theorem C3_extractTenant_null_iff_witness :
    kubeflowMarker.isPrefixOf ((splitOnChar '.' "-kubeflow.x".data).headD []) = true
    ∧ extractTenantFromHostname (some "localhost") = none := by
  constructor
  · exact C3_extractTenant_null_iff.2.2 "-kubeflow.x" (by decide)
  · exact (C3_extractTenant_null_iff.2.1 "localhost").mpr (by decide)

/-- C4: `generateServiceUrl` returns `null` if and only if the tenant is
falsy, the serviceId is falsy, or the uppercased serviceId matches no
entry of the service table; an unmatched serviceId additionally emits a
diagnostic warning; and `generateServiceUrl("UNKNOWN", "ramsay")` is
`null` for every ambient hostname. (The embedding is a total function,
reflecting that no exception is thrown on string-or-nullish inputs.) -/
theorem C4_generateServiceUrl_null_iff :
    (∀ wloc serviceId tenant domain : JStr,
      ((generateServiceUrl wloc serviceId tenant domain).url = none ↔
        falsy tenant = true ∨ falsy serviceId = true
          ∨ SERVICE_CONFIG (jsToUpperCase (jget serviceId)) = none)
      ∧ (falsy tenant = false → falsy serviceId = false →
          SERVICE_CONFIG (jsToUpperCase (jget serviceId)) = none →
          (generateServiceUrl wloc serviceId tenant domain).warnings ≠ []))
    ∧ (∀ wloc : JStr,
        (generateServiceUrl wloc (some "UNKNOWN") (some "ramsay") none).url = none) := by
  constructor
  · intro wloc serviceId tenant domain
    by_cases hft : falsy tenant = true
    · constructor
      · unfold generateServiceUrl
        rw [hft]
        exact iff_of_true rfl (Or.inl rfl)
      · intro hft2
        rw [hft] at hft2
        exact absurd hft2 (by decide)
    · have hft' : falsy tenant = false := by
        cases hb : falsy tenant
        · rfl
        · exact absurd hb hft
      by_cases hfs : falsy serviceId = true
      · constructor
        · unfold generateServiceUrl
          rw [hft', hfs]
          exact iff_of_true rfl (Or.inr (Or.inl rfl))
        · intro _ hfs2
          rw [hfs] at hfs2
          exact absurd hfs2 (by decide)
      · have hfs' : falsy serviceId = false := by
          cases hb : falsy serviceId
          · rfl
          · exact absurd hb hfs
        rcases hc : SERVICE_CONFIG (jsToUpperCase (jget serviceId)) with _ | cfg
        · constructor
          · unfold generateServiceUrl
            rw [hft', hfs', hc]
            exact iff_of_true rfl (Or.inr (Or.inr rfl))
          · intro _ _ _
            unfold generateServiceUrl
            rw [hft', hfs', hc]
            simp
        · have he := generateServiceUrl_eval wloc serviceId tenant domain cfg hft' hfs' hc
          constructor
          · rw [he]
            refine iff_of_false (by simp) ?_
            push_neg
            exact ⟨hft, hfs, fun h0 => Option.noConfusion h0⟩
          · intro _ _ hnone
            exact absurd hnone (fun h0 => Option.noConfusion h0)
  · intro wloc
    rfl

/-- Witness for C4: an unknown service identifier with a truthy tenant
yields a diagnostic warning. -/
theorem C4_generateServiceUrl_null_iff_witness :
    (generateServiceUrl none (some "BOGUS") (some "t") none).warnings ≠ [] := by
  exact (C4_generateServiceUrl_null_iff.1 none (some "BOGUS") (some "t") none).2
    (by decide) (by decide) (by decide)

/-- C6: for every non-empty tenant and non-empty domain,
`generateAllServiceUrls` returns exactly 6 entries, one per service-table
entry in key order, each keyed by the descriptor's display name and none
`null`; and — independently of the tenant, the domain and the ambient
hostname — the keys of the result are always exactly the 6 display
names, so no single service's result can suppress the others. -/
theorem C6_generateAllServiceUrls (wloc : JStr) (tenant domain : String)
    (ht : tenant ≠ "") (hd : domain ≠ "") :
    generateAllServiceUrls wloc (some tenant) (some domain) =
      [("mlflow", some ("https://" ++ tenant ++ "-" ++ "mlflow" ++ "." ++ domain ++ "/")),
       ("optimizer",
        some ("https://" ++ tenant ++ "." ++ domain ++ "/platform-app/app/optimizer")),
       ("vault",
        some ("https://" ++ tenant ++ "." ++ domain ++ "/vault-filebrowser/files/")),
       ("sim-workbench",
        some ("https://" ++ tenant ++ "." ++ domain ++ "/simlab-react-ui/projects")),
       ("platform-docs",
        some ("https://" ++ tenant ++ "." ++ domain ++ "/documentation/")),
       ("ai-workbench",
        some ("https://" ++ tenant ++ "." ++ domain ++
          "/platform-documentation/ai_workbench/index.html"))]
    ∧ ∀ wloc2 tenant2 domain2 : JStr,
        (generateAllServiceUrls wloc2 tenant2 domain2).map Prod.fst =
          ["mlflow", "optimizer", "vault", "sim-workbench", "platform-docs",
           "ai-workbench"] := by
  constructor
  · have ht' : falsy (some tenant) = false := by simp [falsy, ht]
    have hd' : falsy (some domain) = false := by simp [falsy, hd]
    have e1 := generateServiceUrl_eval wloc (some "MLFLOW") (some tenant) (some domain)
      ⟨"mlflow", "tenant-prefix", "/"⟩ ht' (by decide) (by decide)
    have e2 := generateServiceUrl_eval wloc (some "OPTIMIZER") (some tenant) (some domain)
      ⟨"optimizer", "tenant-subdomain", "/platform-app/app/optimizer"⟩ ht' (by decide) (by decide)
    have e3 := generateServiceUrl_eval wloc (some "VAULT") (some tenant) (some domain)
      ⟨"vault", "tenant-subdomain", "/vault-filebrowser/files/"⟩ ht' (by decide) (by decide)
    have e4 := generateServiceUrl_eval wloc (some "SIM_WORKBENCH") (some tenant) (some domain)
      ⟨"sim-workbench", "tenant-subdomain", "/simlab-react-ui/projects"⟩ ht' (by decide) (by decide)
    have e5 := generateServiceUrl_eval wloc (some "PLATFORM_DOCS") (some tenant) (some domain)
      ⟨"platform-docs", "tenant-subdomain", "/documentation/"⟩ ht' (by decide) (by decide)
    have e6 := generateServiceUrl_eval wloc (some "AI_WORKBENCH_DOCS") (some tenant) (some domain)
      ⟨"ai-workbench", "tenant-subdomain", "/platform-documentation/ai_workbench/index.html"⟩
      ht' (by decide) (by decide)
    unfold generateAllServiceUrls SERVICE_KEYS
    simp only [List.map]
    rw [e1, e2, e3, e4, e5, e6, hd']
    rfl
  · intro wloc2 tenant2 domain2
    rfl

/-- Witness for C6: the 6 concrete URLs for tenant `"ramsay"` on the
default domain. -/
theorem C6_generateAllServiceUrls_witness :
    generateAllServiceUrls none (some "ramsay") (some "cloud-tmp.physicsx.ai") =
      [("mlflow", some "https://ramsay-mlflow.cloud-tmp.physicsx.ai/"),
       ("optimizer", some "https://ramsay.cloud-tmp.physicsx.ai/platform-app/app/optimizer"),
       ("vault", some "https://ramsay.cloud-tmp.physicsx.ai/vault-filebrowser/files/"),
       ("sim-workbench", some "https://ramsay.cloud-tmp.physicsx.ai/simlab-react-ui/projects"),
       ("platform-docs", some "https://ramsay.cloud-tmp.physicsx.ai/documentation/"),
       ("ai-workbench",
        some "https://ramsay.cloud-tmp.physicsx.ai/platform-documentation/ai_workbench/index.html")] := by
  rw [(C6_generateAllServiceUrls none "ramsay" "cloud-tmp.physicsx.ai"
    (by decide) (by decide)).1]
  decide

/-- C5: `extractDomainFromHostname` returns the default domain constant
`"cloud-tmp.physicsx.ai"` when the input is not a non-empty string or
contains no `'.'`, and otherwise the substring strictly after the first
`'.'`; it never returns the whole hostname. -/
theorem C5_extractDomain_spec :
    extractDomainFromHostname none = DEFAULT_DOMAIN
    ∧ extractDomainFromHostname (some "") = DEFAULT_DOMAIN
    ∧ (∀ s : String, '.' ∉ s.data →
        extractDomainFromHostname (some s) = DEFAULT_DOMAIN)
    ∧ (∀ (s : String) (pre post : List Char), '.' ∉ pre →
        s.data = pre ++ '.' :: post →
        extractDomainFromHostname (some s) = String.mk post)
    ∧ (∀ s : String, extractDomainFromHostname (some s) ≠ s)
    ∧ DEFAULT_DOMAIN = "cloud-tmp.physicsx.ai"
    ∧ extractDomainFromHostname (some "ramsay.cloud-tmp.physicsx.ai") =
        "cloud-tmp.physicsx.ai"
    ∧ extractDomainFromHostname (some "nodothost") = DEFAULT_DOMAIN := by
  refine ⟨rfl, rfl, fun s hdot => ?_, fun s pre post hp hdata => ?_, fun s => ?_,
    rfl, by decide, rfl⟩
  · by_cases hs : s = ""
    · rw [hs]; rfl
    · simp only [extractDomainFromHostname, if_neg hs,
        afterFirstChar_of_not_mem hdot]
  · have hs : s ≠ "" := by
      intro h0
      rw [h0] at hdata
      exact absurd hdata.symm (by simp)
    simp only [extractDomainFromHostname, if_neg hs, hdata,
      afterFirstChar_append pre post hp]
  · intro heq
    by_cases hs : s = ""
    · rw [hs] at heq
      exact absurd heq.symm (by decide)
    · rcases hc : afterFirstChar '.' s.data with _ | r
      · simp only [extractDomainFromHostname, if_neg hs, hc] at heq
        rw [← heq] at hc
        exact absurd hc (by decide)
      · simp only [extractDomainFromHostname, if_neg hs, hc] at heq
        have hr : r = s.data := congrArg String.data heq
        rw [hr] at hc
        exact absurd (afterFirstChar_length hc) (Nat.lt_irrefl _)

/-- Witness for C5: the substring after the first dot at a concrete
hostname with several dots. -/
theorem C5_extractDomain_spec_witness :
    extractDomainFromHostname (some "x.y.z") = "y.z" := by
  exact C5_extractDomain_spec.2.2.2.1 "x.y.z" "x".data "y.z".data
    (by decide) (by decide)

/-- C7 counterexample: JavaScript `String.prototype.replace` interprets
`$$` in the replacement string, so for the tenant value `"$$"` the code
substitutes a single `"$"` where the claim's literal replacement demands
`"$$"`. -/
theorem C7_counterexample :
    processExternalLink none (some "$\x7bTENANT\x7d") (some "$$") (some "d") =
      some "$"
    ∧ specLiteralReplaceAll (specLiteralReplaceAll "$\x7bTENANT\x7d" TENANT_TOKEN "$$")
        DOMAIN_TOKEN "d" = "$$"
    ∧ processExternalLink none (some "$\x7bTENANT\x7d") (some "$$") (some "d") ≠
        some (specLiteralReplaceAll
          (specLiteralReplaceAll "$\x7bTENANT\x7d" TENANT_TOKEN "$$")
          DOMAIN_TOKEN "d") := by
  refine ⟨by decide, by decide, by decide⟩

/-- C7 (amended): `processExternalLink` is the identity when `link` or
`tenant` is falsy; and when both are truthy, provided the tenant value
and the resolved domain value contain no `'$'` character, it returns the
link with every occurrence of the TENANT token replaced literally by the
tenant and then every occurrence of the DOMAIN token replaced literally
by the resolved domain, in that order. -/
theorem C7_processExternalLink_literal :
    (∀ wloc link tenant domain : JStr, (falsy link || falsy tenant) = true →
        processExternalLink wloc link tenant domain = link)
    ∧ (∀ (wloc domain : JStr) (link tenant : String), link ≠ "" → tenant ≠ "" →
        '$' ∉ tenant.data →
        '$' ∉ (if falsy domain then extractDomainFromHostname wloc
                else jget domain).data →
        processExternalLink wloc (some link) (some tenant) domain =
          some (specLiteralReplaceAll
            (specLiteralReplaceAll link TENANT_TOKEN tenant)
            DOMAIN_TOKEN
            (if falsy domain then extractDomainFromHostname wloc
             else jget domain))) := by
  constructor
  · intro wloc link tenant domain h
    unfold processExternalLink
    rw [if_pos h]
  · intro wloc domain link tenant hlink htenant hT hD
    have hcond : (falsy (some link) || falsy (some tenant)) = false := by
      simp [falsy, hlink, htenant]
    simp only [processExternalLink, hcond, Bool.false_eq_true, if_false]
    have h1 : jsReplaceAll link.data TENANT_TOKEN.data tenant.data =
        (specLiteralReplaceAll link TENANT_TOKEN tenant).data := by
      unfold jsReplaceAll specLiteralReplaceAll
      rw [jsReplaceGo_eq_litReplaceGo _ hT]
    have h2 : jsReplaceAll (specLiteralReplaceAll link TENANT_TOKEN tenant).data
        DOMAIN_TOKEN.data
        (if falsy domain then extractDomainFromHostname wloc else jget domain).data =
        (specLiteralReplaceAll (specLiteralReplaceAll link TENANT_TOKEN tenant)
          DOMAIN_TOKEN
          (if falsy domain then extractDomainFromHostname wloc
           else jget domain)).data := by
      unfold jsReplaceAll specLiteralReplaceAll
      rw [jsReplaceGo_eq_litReplaceGo _ hD]
    rw [show jget (some link) = link from rfl, show jget (some tenant) = tenant from rfl,
      h1, h2]

/-- Witness for C7: the concrete substitution of the claim, whose tenant
and domain are dollar-free. -/
theorem C7_processExternalLink_literal_witness :
    processExternalLink none (some "https://$\x7bTENANT\x7d-mlflow.$\x7bDOMAIN\x7d/")
        (some "ramsay") (some "cloud-tmp.physicsx.ai") =
      some "https://ramsay-mlflow.cloud-tmp.physicsx.ai/" := by
  rw [C7_processExternalLink_literal.2 none (some "cloud-tmp.physicsx.ai")
    "https://$\x7bTENANT\x7d-mlflow.$\x7bDOMAIN\x7d/" "ramsay"
    (by decide) (by decide) (by decide) (by decide)]
  decide

/-- C8: `processExternalLinks` passes the input through unchanged when
the tenant is falsy; otherwise it returns a sequence of equal length and
same order whose i-th element is a copy of the i-th input element with
only the `link` field rewritten via `processExternalLink` and all other
fields preserved. (The embedding is pure, reflecting that the source
builds each output element with `Object.assign({}, link)` and never
mutates the input array or its elements.) -/
theorem C8_processExternalLinks_frame :
    (∀ (wloc : JStr) (links : List ExternalLink) (tenant domain : JStr),
        falsy tenant = true →
        processExternalLinks wloc links tenant domain = links)
    ∧ (∀ (wloc : JStr) (links : List ExternalLink) (tenant domain : JStr),
        falsy tenant = false →
        (processExternalLinks wloc links tenant domain).length = links.length
        ∧ ∀ (i : Nat) (l : ExternalLink), links[i]? = some l →
            (processExternalLinks wloc links tenant domain)[i]? =
              some ⟨processExternalLink wloc l.link tenant domain, l.rest⟩) := by
  constructor
  · intro wloc links tenant domain h
    unfold processExternalLinks
    rw [if_pos h]
  · intro wloc links tenant domain h
    have h' : ¬ falsy tenant = true := by rw [h]; decide
    unfold processExternalLinks
    rw [if_neg h']
    refine ⟨by simp, fun i l hl => ?_⟩
    simp [List.getElem?_map, hl]

/-- Witness for C8: a one-element list is rewritten elementwise, the
non-`link` fields surviving unchanged. -/
theorem C8_processExternalLinks_frame_witness :
    (processExternalLinks none [⟨some "$\x7bTENANT\x7d", [("t", "v")]⟩]
        (some "x") (some "d"))[0]? =
      some ⟨some "x", [("t", "v")]⟩ := by
  rw [(C8_processExternalLinks_frame.2 none
    [⟨some "$\x7bTENANT\x7d", [("t", "v")]⟩] (some "x") (some "d")
    (by decide)).2 0 ⟨some "$\x7bTENANT\x7d", [("t", "v")]⟩ (by decide)]
  decide

/-- C9: for every string containing no occurrence of the TENANT or DOMAIN
tokens, and every tenant, domain and ambient hostname,
`processExternalLink` returns that string unchanged (hence it is
idempotent on its own placeholder-free outputs). -/
theorem C9_processExternalLink_id (wloc tenant domain : JStr) (s : String)
    (h1 : firstSplit TENANT_TOKEN.data s.data = none)
    (h2 : firstSplit DOMAIN_TOKEN.data s.data = none) :
    processExternalLink wloc (some s) tenant domain = some s := by
  by_cases hb : (falsy (some s) || falsy tenant) = true
  · unfold processExternalLink
    rw [if_pos hb]
  · have hb' : (falsy (some s) || falsy tenant) = false := by
      cases hx : (falsy (some s) || falsy tenant)
      · rfl
      · exact absurd hx hb
    simp only [processExternalLink, hb', Bool.false_eq_true, if_false]
    rw [show jget (some s) = s from rfl, jsReplaceAll_of_no_match _ h1,
      jsReplaceAll_of_no_match _ h2]

/-- Witness for C9: a placeholder-free URL passes through unchanged. -/
theorem C9_processExternalLink_id_witness :
    processExternalLink none (some "https://static.example.com/") (some "t")
        (some "d") = some "https://static.example.com/" := by
  exact C9_processExternalLink_id none (some "t") (some "d")
    "https://static.example.com/" (by decide) (by decide)

/-- C10: passing the empty string as the domain argument behaves
identically to passing `null` (the omitted-argument default), for every
serviceId, tenant, link and ambient hostname: both are falsy, so the
domain is derived from the ambient hostname in either case. -/
theorem C10_empty_domain_defaults :
    (∀ wloc serviceId tenant : JStr,
        generateServiceUrl wloc serviceId tenant (some "") =
          generateServiceUrl wloc serviceId tenant none)
    ∧ (∀ wloc link tenant : JStr,
        processExternalLink wloc link tenant (some "") =
          processExternalLink wloc link tenant none) := by
  exact ⟨fun wloc serviceId tenant => rfl, fun wloc link tenant => rfl⟩

end UrlUtils
